import Mathlib

/-!
Shallow embedding of the order-execution and risk-control engine of the
`cryptoalgotrading` repository: the `Bittrex` and `Binance` classes of
`cryptoalgotrading/riskmanagement.py` and the exit predicates `stop_loss` /
`trailing_stop_loss` of `cryptoalgotrading/aux.py`, followed by theorems
settling the specification claims.

Modelling conventions:
* Python floats are modelled as exact rationals (`ℚ`); Python's built-in
  `round(x, n)` is round-half-to-even at `n` decimal places and Python's
  `x % L` (for `L > 0`) is `x - L * ⌊x / L⌋`.
* Python exceptions escaping an operation are modelled as `Except.error` of a
  `PyError`; an operation that returns normally yields `Except.ok`.
* The exchange connection (`self.conn`) is external: the balance list a
  `refresh_balance()` receives and the response to the single order-placement
  call an operation makes are parameters of the operation, and every
  placement request the operation actually issues is collected in an explicit
  request list, so "no order was placed" is `requests = []`.
* The configuration module `var` (not part of the repository sources) only
  supplies the numbers `usdt_min`, `btc_min` and `risk`; they are carried as
  state fields.
-/

namespace AlgoTrading

/-! ### Python primitives on exact rationals -/

/-- Integer round-half-to-even of a rational, the rounding mode of Python's
built-in `round`. -/
def roundHalfEven (q : ℚ) : ℤ :=
  if q - ⌊q⌋ < 1/2 then ⌊q⌋
  else if 1/2 < q - ⌊q⌋ then ⌊q⌋ + 1
  else if 2 ∣ ⌊q⌋ then ⌊q⌋ else ⌊q⌋ + 1

/-- Python `round(x, n)`: round half to even at `n` decimal places. -/
def pyRound (x : ℚ) (n : ℕ) : ℚ := (roundHalfEven (x * 10 ^ n) : ℚ) / 10 ^ n

/-- Python `x % L` for rationals (result has the divisor's sign; the code only
uses it with positive lot sizes). -/
def pyMod (x L : ℚ) : ℚ := x - L * ⌊x / L⌋

/-- Char-list test that `p` is an initial segment of the second list. -/
def leadMatch : List Char → List Char → Bool
  | [], _ => true
  | _ :: _, [] => false
  | p :: ps, c :: cs => p = c && leadMatch ps cs

/-- Fuel-indexed worker for `removeAll`; the fuel starts at the string length
and each step consumes at least one character. -/
def removeAllAux (pat : List Char) : ℕ → List Char → List Char
  | _, [] => []
  | 0, l => l
  | fuel + 1, c :: cs =>
    if pat ≠ [] ∧ leadMatch pat (c :: cs) then
      removeAllAux pat fuel (List.drop (pat.length - 1) cs)
    else c :: removeAllAux pat fuel cs

/-- Python `s.replace(pat, '')`: delete every non-overlapping occurrence of
`pat` from `s`, scanning left to right (an empty pattern deletes nothing). -/
def removeAll (s pat : String) : String := ⟨removeAllAux pat.data s.data.length s.data⟩

/-- Python `s.split('-')[0]`: the part of `s` before the first dash. -/
def headOfSplitDash (s : String) : String := ⟨s.data.takeWhile (fun c => c ≠ '-')⟩

/-! ### Exit Evaluator: `aux.trailing_stop_loss` and `aux.stop_loss`

The Python defaults `var.trailing_loss_prcnt` / `var.stop_loss_prcnt` come
from the out-of-scope config module, so the percentage is an explicit
argument. -/

/-- Function `aux.trailing_stop_loss(last, higher, percentage)`:
`last <= higher * (1 - (percentage * 0.01))`. -/
def trailing_stop_loss (last higher percentage : ℚ) : Bool :=
  decide (last ≤ higher * (1 - percentage * (1/100)))

/-- Function `aux.stop_loss(last, entry_point_x, percentage)`:
`last <= entry_point_x * (1 - (percentage * 0.01))`. -/
def stop_loss (last entry_point_x percentage : ℚ) : Bool :=
  decide (last ≤ entry_point_x * (1 - percentage * (1/100)))

/-! ### Shared error and payload shapes -/

deriving instance DecidableEq for Except

/-- A Python exception escaping to the caller. -/
inductive PyError
  | keyError (key : String)
  | nameError (n : String)
  | unboundLocal (n : String)
  | indexError
  | exc (detail : String)
deriving Repr, DecidableEq

/-- Raw exchange order payload: the `status` field that `buy` inspects plus
the rest of the exchange response, kept opaque. -/
structure OrderPayload where
  status : String
  rest : String
deriving Repr, DecidableEq

/-- Response of `conn.get_symbol_info(symbol)`: the fields `asset_info`
reads — `symbol`, `quoteAssetPrecision` and the `filters` list, each filter
modelled as a `(filterType, stepSize)` pair. -/
structure SymbolInfoRaw where
  symbol : String
  quoteAssetPrecision : ℕ
  filters : List (String × ℚ)
deriving Repr, DecidableEq

/-- The dict built by `Binance.asset_info`:
`{'symbol': …, 'precision': …, 'lot_size': …, 'more': d}`. -/
structure AssetInfo where
  symbol : String
  precision : ℕ
  lot_size : ℚ
  more : SymbolInfoRaw
deriving Repr, DecidableEq

/-- One entry of `Binance.assets`: `{'available': …, 'pending': …,
'info': …}`; `info = none` models the initial empty info dict `{}`. -/
structure Asset where
  available : ℚ
  pending : ℚ
  info : Option AssetInfo
deriving Repr, DecidableEq

/-- Association-list lookup, modelling Python `d[k]` on a dict. -/
def lookupA {α : Type} : List (String × α) → String → Option α
  | [], _ => none
  | (k', v) :: rest, k => if k' = k then some v else lookupA rest k

/-- Association-list update, modelling Python `d[k] = v` (adds `k` when
missing, keeps its position when present). -/
def updateA {α : Type} : List (String × α) → String → α → List (String × α)
  | [], k, v => [(k, v)]
  | (k', v') :: rest, k, v =>
    if k' = k then (k', v) :: rest else (k', v') :: updateA rest k v

/-- One entry of the exchange's `get_account()["balances"]` list:
`{'asset': …, 'free': …, 'locked': …}`. -/
structure FetchedBal where
  asset : String
  free : ℚ
  locked : ℚ
deriving Repr, DecidableEq

/-! ### The `Binance` class -/

/-- Fields of `Binance.__init__`: the minimum-limit map `{'USDT', 'BTC'}`, the
risk fraction, and the asset map; `usdt_min`, `btc_min` and `risk` come from
the `var` config module.  The precision map `{'USDT': 2, 'BTC': 8}` is
literal in the source and is the function `coin_precision` below. -/
structure BinanceState where
  usdt_min : ℚ
  btc_min : ℚ
  risk : ℚ
  assets : List (String × Asset)
deriving Repr, DecidableEq

namespace Binance

/-- Lookup `self.min_limit[currency]` for `min_limit = {'USDT': var.usdt_min,
'BTC': var.btc_min}`; `none` models the `KeyError` of any other key. -/
def min_limit (st : BinanceState) (currency : String) : Option ℚ :=
  if currency = "USDT" then some st.usdt_min
  else if currency = "BTC" then some st.btc_min
  else none

/-- Lookup `self.coin_precision[currency]` for `coin_precision = {'USDT': 2,
'BTC': 8}`; `none` models the `KeyError` of any other key. -/
def coin_precision (currency : String) : Option ℕ :=
  if currency = "USDT" then some 2
  else if currency = "BTC" then some 8
  else none

/-- Line 152 of `riskmanagement.py`:
`quantity_to_buy = cur_balance * self.risk`. -/
def quantity_to_buy (cur_balance risk : ℚ) : ℚ := cur_balance * risk

/-- Method `Binance.refresh_balance`: for every fetched coin, update its
available/pending amounts; a coin not yet tracked is added with empty info. -/
def refresh_balance (assets : List (String × Asset)) :
    List FetchedBal → List (String × Asset)
  | [] => assets
  | c :: rest =>
    refresh_balance
      (match lookupA assets c.asset with
       | some a => updateA assets c.asset
           { a with available := c.free, pending := c.locked }
       | none => updateA assets c.asset
           { available := c.free, pending := c.locked, info := none })
      rest

/-- Method `Binance.asset_info` applied to the `get_symbol_info` response `d`: picks
the step size of the first `LOT_SIZE` filter (`IndexError` when there is
none) and packages symbol, precision and lot size. -/
def asset_info (d : SymbolInfoRaw) : Except PyError AssetInfo :=
  match (d.filters.filter (fun a => a.1 = "LOT_SIZE")).head? with
  | none => .error .indexError
  | some a =>
    .ok { symbol := d.symbol, precision := d.quoteAssetPrecision,
          lot_size := a.2, more := d }

/-- An order-placement request issued to the exchange by `buy`. -/
inductive BuyRequest
  | market (symbol : String) (quoteOrderQty : ℚ)
  | limit (symbol : String) (price : ℚ) (quantity : ℚ)
deriving Repr, DecidableEq

/-- The dict in the second component of `buy`'s return value. -/
inductive BuyInfo
  /-- Dict `\x7b'error': '<message string>'\x7d`. -/
  | errorMsg (msg : String)
  /-- Dict `\x7b'error': e\x7d` for a caught exception `e`. -/
  | errorExc (e : String)
  /-- The raw `buy_order` exchange response. -/
  | payload (o : OrderPayload)
deriving Repr, DecidableEq

/-- Everything observable about one `Binance.buy` call: its return value (or
escaped exception), the placement requests it issued, and the state left
behind. -/
structure BuyOutcome where
  result : Except PyError (Bool × BuyInfo)
  requests : List BuyRequest
  state : BinanceState
deriving Repr, DecidableEq

/-- Method `Binance.buy(coin, currency, price)`.  `fetched` is the balance list the
initial `refresh_balance()` receives; `placeResult` is the response of the
single placement call (`.error e` models an exception raised by the client
and caught by the `try`); `symbolInfoResult` is the `get_symbol_info`
response that `asset_info` consumes after a fill (its `.error` models an
exception raised outside any `try`, hence escaping). -/
def buy (st0 : BinanceState) (fetched : List FetchedBal)
    (coin : String) (currency : String) (price : ℚ)
    (placeResult : Except String OrderPayload)
    (symbolInfoResult : Except String SymbolInfoRaw) : BuyOutcome :=
  -- self.refresh_balance()
  let st : BinanceState := { st0 with assets := refresh_balance st0.assets fetched }
  -- cur_balance = self.assets[currency]['available'] + self.assets[currency]['pending']
  match lookupA st.assets currency with
  | none => ⟨.error (.keyError currency), [], st⟩
  | some a =>
    match min_limit st currency with
    | none => ⟨.error (.keyError currency), [], st⟩
    | some m =>
      if a.available + a.pending < m then
        ⟨.ok (false, .errorMsg "Insufficient funds"), [], st⟩
      else
        let q := quantity_to_buy (a.available + a.pending) st.risk
        if q > a.available then
          ⟨.ok (false, .errorMsg "Portfolio has no space for new assets"), [], st⟩
        else
          -- try: market buy when `not price`, else limit buy
          match coin_precision currency with
          | none => ⟨.ok (false, .errorExc ("KeyError: " ++ currency)), [], st⟩
          | some p =>
            let req : BuyRequest :=
              if price = 0 then .market coin (pyRound q p)
              else .limit coin price (pyRound (q / price) p)
            match placeResult with
            | .error e => ⟨.ok (false, .errorExc e), [req], st⟩
            | .ok buy_order =>
              if buy_order.status = "FILLED" then
                -- self.assets[coin.replace(currency, '')]['info'] = self.asset_info(coin)
                match symbolInfoResult with
                | .error e => ⟨.error (.exc e), [req], st⟩
                | .ok d =>
                  match asset_info d with
                  | .error pe => ⟨.error pe, [req], st⟩
                  | .ok info =>
                    match lookupA st.assets (removeAll coin currency) with
                    | none => ⟨.error (.keyError (removeAll coin currency)), [req], st⟩
                    | some b =>
                      ⟨.ok (true, .payload buy_order), [req],
                       { st with assets := updateA st.assets (removeAll coin currency)
                                   { b with info := some info } }⟩
              else
                ⟨.ok (false, .payload buy_order), [req], st⟩

/-- An order-placement request issued to the exchange by `sell`
(`order_market_sell`; the source passes the quantity as `str(prec_quantity)`,
modelled by its numeric value). -/
inductive SellRequest
  | market (symbol : String) (quantity : ℚ)
deriving Repr, DecidableEq

/-- The dict in the second component of `sell`'s return value. -/
inductive SellInfo
  /-- The handler's dict `{'error': e, 'coin': …, 'prec': …, 'available': …,
  'more info': …}`. -/
  | errDict (e : String) (coin : String) (prec : ℚ) (available : ℚ) (info : AssetInfo)
  /-- The raw `sell_order` exchange response. -/
  | payload (o : OrderPayload)
deriving Repr, DecidableEq

/-- Everything observable about one `Binance.sell` call. -/
structure SellOutcome where
  result : Except PyError (Bool × SellInfo)
  requests : List SellRequest
  state : BinanceState
deriving Repr, DecidableEq

/-- Method `Binance.sell(coin, currency, quantity)`.  When `quantity` is falsy the
`try` block computes the precision-constrained quantity and places a market
sell; an exception while computing it (missing asset, or empty info dict)
reaches the handler, whose dict itself reads the yet-unbound
`prec_quantity`, so `UnboundLocalError` escapes.  When `quantity` is
non-zero the whole `if` block is skipped and the final
`return True, sell_order` reads the never-assigned `sell_order`. -/
def sell (st0 : BinanceState) (fetched : List FetchedBal)
    (coin : String) (currency : String) (quantity : ℚ)
    (placeResult : Except String OrderPayload) : SellOutcome :=
  -- self.refresh_balance()
  let st : BinanceState := { st0 with assets := refresh_balance st0.assets fetched }
  if quantity = 0 then
    match lookupA st.assets (removeAll coin currency) with
    | none => ⟨.error (.unboundLocal "prec_quantity"), [], st⟩
    | some a =>
      match a.info with
      | none => ⟨.error (.unboundLocal "prec_quantity"), [], st⟩
      | some info =>
        -- prec_quantity = round(available - (available % lot_size), precision)
        let prec_quantity :=
          pyRound (a.available - pyMod a.available info.lot_size) info.precision
        let req : SellRequest := .market coin prec_quantity
        match placeResult with
        | .error e =>
          ⟨.ok (false, .errDict e coin prec_quantity a.available info), [req], st⟩
        | .ok sell_order => ⟨.ok (true, .payload sell_order), [req], st⟩
  else
    ⟨.error (.unboundLocal "sell_order"), [], st⟩

/-- The `coins` argument of `get_balances`: `None`, a list, or a string. -/
inductive CoinsArg
  | noneArg
  | listArg (coins : List String)
  | strArg (coin : String)
deriving Repr, DecidableEq

/-- Python truthiness of the `coins` argument (`if not coins`). -/
def falsyCoins : CoinsArg → Bool
  | .noneArg => true
  | .listArg cs => cs.isEmpty
  | .strArg c => c = ""

/-- Return shape of `get_balances`: the full dict, a sub-dict, or one
asset's dict — a bare mapping, not a (success, result) pair. -/
inductive BalancesResult
  | all (assets : List (String × Asset))
  | subset (assets : List (String × Asset))
  | one (a : Asset)
deriving Repr, DecidableEq

/-- The dict comprehension `{coin: self.assets[coin] for coin in coins}`:
raises `KeyError` at the first unknown coin. -/
def subsetA (assets : List (String × Asset)) :
    List String → Except PyError (List (String × Asset))
  | [] => .ok []
  | c :: cs =>
    match lookupA assets c with
    | none => .error (.keyError c)
    | some a => (subsetA assets cs).map (fun rest => (c, a) :: rest)

/-- Method `Binance.get_balances(coins)`: refreshes, then returns all assets for a
falsy argument, a sub-dict for a list, or one asset's dict for a string;
unknown assets raise `KeyError`. -/
def get_balances (st0 : BinanceState) (fetched : List FetchedBal)
    (coins : CoinsArg) : Except PyError BalancesResult × BinanceState :=
  let st : BinanceState := { st0 with assets := refresh_balance st0.assets fetched }
  if falsyCoins coins then (.ok (.all st.assets), st)
  else
    match coins with
    | .noneArg => (.ok (.all st.assets), st)
    | .listArg cs =>
      match subsetA st.assets cs with
      | .error e => (.error e, st)
      | .ok sub => (.ok (.subset sub), st)
    | .strArg c =>
      match lookupA st.assets c with
      | none => (.error (.keyError c), st)
      | some a => (.ok (.one a), st)

/-- Method `Binance.cancel_order(symbol, order_id)` (the later definition in the
class, which shadows the earlier stub): forwards to the exchange and returns
its cancellation payload unmodified. -/
def cancel_order (symbol order_id : String) (cancelResult : OrderPayload) :
    OrderPayload := cancelResult

end Binance

/-! ### The `Bittrex` class -/

/-- Fields of `Bittrex.__init__`: `min_limit = var.usdt_min`,
`risk = var.risk`, and the `available` balance dict. -/
structure BittrexState where
  min_limit : ℚ
  risk : ℚ
  available : List (String × ℚ)
deriving Repr, DecidableEq

namespace Bittrex

/-- Method `Bittrex.buy(coin, amount, price)`.  After the minimum-limit check and
`to_spend = self.available[coin.split('-')[0]] * self.risk`, line 52 is
`res = self.conn.buy_limit(coin, rate/to_spend, rate)` — the name `rate` is
not defined anywhere in the method, so evaluating the arguments raises
`NameError` before any exchange call.  The second component lists the
placement requests actually issued. -/
def buy (st : BittrexState) (coin : String) (amount price : ℚ) :
    Except PyError (Bool × String) × List Binance.BuyRequest :=
  match lookupA st.available (headOfSplitDash coin) with
  | none => (.error (.keyError (headOfSplitDash coin)), [])
  | some avail =>
    if avail ≤ st.min_limit then
      (.ok (false, "Cash under Minimum limit."), [])
    else
      -- to_spend = avail * st.risk, then `rate/to_spend` raises NameError
      (.error (.nameError "rate"), [])

end Bittrex

/-! ### Interleaving model for concurrent `Binance.buy` calls

`Binance.buy` contains no synchronization (the source imports no lock and
takes none), so two strategy loops calling `buy` on the same account may
interleave freely.  Each thread's program is the buy sequence read off the
source: read the refreshed available balance (line 145), size
`spend = quantity_to_buy(read, risk)` (line 152), and — when the guard
`spend > available` against the then-current balance (line 154) passes —
submit, the filled order debiting the shared balance.  `pending` is taken as
0 throughout. -/

/-- Shared account state plus each thread's local view during two
overlapping `buy` calls. -/
structure ConcState where
  available : ℚ
  read1 : Option ℚ
  read2 : Option ℚ
  spent1 : Option ℚ
  spent2 : Option ℚ
deriving Repr, DecidableEq

/-- One atomic step of either thread's buy sequence. -/
inductive BuyStep
  | read1 | read2 | submit1 | submit2
deriving Repr, DecidableEq

/-- Semantics of one step, with the sizing taken from `quantity_to_buy`. -/
def stepBuy (risk : ℚ) (s : ConcState) : BuyStep → ConcState
  | .read1 => { s with read1 := some s.available }
  | .read2 => { s with read2 := some s.available }
  | .submit1 =>
    match s.read1 with
    | none => s
    | some b =>
      let spend := Binance.quantity_to_buy b risk
      if spend > s.available then s
      else { s with available := s.available - spend, spent1 := some spend }
  | .submit2 =>
    match s.read2 with
    | none => s
    | some b =>
      let spend := Binance.quantity_to_buy b risk
      if spend > s.available then s
      else { s with available := s.available - spend, spent2 := some spend }

/-- Run an interleaving of the two buy calls' steps. -/
def runBuys (risk : ℚ) (s : ConcState) (steps : List BuyStep) : ConcState :=
  steps.foldl (stepBuy risk) s

/-- Total amount the two buy calls spent. -/
def jointSpend (s : ConcState) : ℚ := s.spent1.getD 0 + s.spent2.getD 0

/-! ### Concrete states used by counterexamples and witnesses -/

/-- Account with 100 USDT available and 100 USDT pending, risk fraction 3/5. -/
def c1State : BinanceState :=
  { usdt_min := 50, btc_min := 1/100, risk := 3/5,
    assets := [("USDT", { available := 100, pending := 100, info := none })] }

/-- The spec's worked example: 1000 USDT available, nothing pending,
risk 1/10, minimum 50. -/
def c2State : BinanceState :=
  { usdt_min := 50, btc_min := 1/100, risk := 1/10,
    assets := [("USDT", { available := 1000, pending := 0, info := none })] }

/-- Account with 10 USDT available but 100 USDT pending (so the combined
balance passes the minimum check although the available part is below it). -/
def c4State : BinanceState :=
  { usdt_min := 50, btc_min := 1/100, risk := 1/20,
    assets := [("USDT", { available := 10, pending := 100, info := none })] }

/-- Trading metadata for BTCUSDT with lot size 0.001 and precision 3. -/
def demoInfo : AssetInfo :=
  { symbol := "BTCUSDT", precision := 3, lot_size := 1/1000,
    more := { symbol := "BTCUSDT", quoteAssetPrecision := 3,
              filters := [("LOT_SIZE", 1/1000)] } }

/-- Account holding 1.2345 BTC with the BTCUSDT metadata cached, plus a USDT
balance. -/
def c5State : BinanceState :=
  { usdt_min := 50, btc_min := 1/100, risk := 1/10,
    assets := [("BTC", { available := 12345/10000, pending := 0, info := some demoInfo }),
               ("USDT", { available := 1000, pending := 0, info := none })] }

/-- Bittrex account with 100 USDT available, minimum limit 50, risk 1/10. -/
def c8State : BittrexState :=
  { min_limit := 50, risk := 1/10, available := [("USDT", 100)] }

/-- Account with 20 USDT available and 10 pending: combined balance 30,
below the minimum of 50. -/
def lowState : BinanceState :=
  { usdt_min := 50, btc_min := 1/100, risk := 1/10,
    assets := [("USDT", { available := 20, pending := 10, info := none })] }

/-! ### Helper lemmas -/

theorem min_limit_state_update (st : BinanceState) (x : List (String × Asset))
    (c : String) :
    Binance.min_limit { st with assets := x } c = Binance.min_limit st c := rfl

theorem roundHalfEven_close (q : ℚ) : |(roundHalfEven q : ℚ) - q| ≤ 1/2 := by
  unfold roundHalfEven
  have h0 : (⌊q⌋ : ℚ) ≤ q := Int.floor_le q
  have h1 : q < ⌊q⌋ + 1 := Int.lt_floor_add_one q
  split_ifs with hf1 hf2 hf3
  · rw [abs_of_nonpos (by linarith)]; linarith
  · push_cast
    rw [abs_of_nonneg (by linarith)]; linarith
  · have he : q - ⌊q⌋ = 1/2 := le_antisymm (not_lt.mp hf2) (not_lt.mp hf1)
    rw [abs_of_nonpos (by linarith)]; linarith
  · have he : q - ⌊q⌋ = 1/2 := le_antisymm (not_lt.mp hf2) (not_lt.mp hf1)
    push_cast
    rw [abs_of_nonneg (by linarith)]; linarith

theorem pyRound_close (x : ℚ) (n : ℕ) : |pyRound x n - x| ≤ 1 / (2 * 10 ^ n) := by
  unfold pyRound
  have h10 : (0 : ℚ) < 10 ^ n := by positivity
  have h := roundHalfEven_close (x * 10 ^ n)
  have hrw : (roundHalfEven (x * 10 ^ n) : ℚ) / 10 ^ n - x
      = ((roundHalfEven (x * 10 ^ n) : ℚ) - x * 10 ^ n) / 10 ^ n := by
    field_simp
    ring
  rw [hrw, abs_div, abs_of_pos h10]
  calc |(roundHalfEven (x * 10 ^ n) : ℚ) - x * 10 ^ n| / 10 ^ n
      ≤ (1/2) / 10 ^ n := by gcongr
    _ = 1 / (2 * 10 ^ n) := by ring

theorem pyMod_nonneg (x L : ℚ) (hL : 0 < L) : 0 ≤ pyMod x L := by
  unfold pyMod
  have h1 : (⌊x / L⌋ : ℚ) ≤ x / L := Int.floor_le _
  have h2 : L * (⌊x / L⌋ : ℚ) ≤ L * (x / L) := by
    exact mul_le_mul_of_nonneg_left h1 (le_of_lt hL)
  have h3 : L * (x / L) = x := by field_simp
  linarith

theorem sub_pyMod_eq (x L : ℚ) : x - pyMod x L = L * ⌊x / L⌋ := by
  unfold pyMod; ring

theorem pyMod_mul_int (L : ℚ) (hL : L ≠ 0) (k : ℤ) : pyMod (L * k) L = 0 := by
  unfold pyMod
  rw [mul_div_cancel_left₀ _ hL, Int.floor_intCast]
  ring

theorem pyMod_sub_pyMod (x L : ℚ) (hL : L ≠ 0) : pyMod (x - pyMod x L) L = 0 := by
  rw [sub_pyMod_eq]
  exact pyMod_mul_int L hL ⌊x / L⌋

/-! ### Branch lemmas for `Binance.buy` -/

theorem buy_insufficient (st : BinanceState) (fetched : List FetchedBal)
    (coin currency : String) (price : ℚ)
    (pr : Except String OrderPayload) (si : Except String SymbolInfoRaw)
    (a : Asset) (m : ℚ)
    (hA : lookupA (Binance.refresh_balance st.assets fetched) currency = some a)
    (hM : Binance.min_limit st currency = some m)
    (hlt : a.available + a.pending < m) :
    Binance.buy st fetched coin currency price pr si
      = ⟨.ok (false, .errorMsg "Insufficient funds"), [],
         { st with assets := Binance.refresh_balance st.assets fetched }⟩ := by
  simp only [Binance.buy, min_limit_state_update, hA, hM]
  rw [if_pos hlt]

theorem buy_no_space (st : BinanceState) (fetched : List FetchedBal)
    (coin currency : String) (price : ℚ)
    (pr : Except String OrderPayload) (si : Except String SymbolInfoRaw)
    (a : Asset) (m : ℚ)
    (hA : lookupA (Binance.refresh_balance st.assets fetched) currency = some a)
    (hM : Binance.min_limit st currency = some m)
    (hge : ¬ a.available + a.pending < m)
    (hq : Binance.quantity_to_buy (a.available + a.pending) st.risk > a.available) :
    Binance.buy st fetched coin currency price pr si
      = ⟨.ok (false, .errorMsg "Portfolio has no space for new assets"), [],
         { st with assets := Binance.refresh_balance st.assets fetched }⟩ := by
  simp only [Binance.buy, min_limit_state_update, hA, hM]
  rw [if_neg hge, if_pos hq]

/-- The single placement request `buy` issues once both guards pass. -/
theorem buy_requests_of_guards (st : BinanceState) (fetched : List FetchedBal)
    (coin currency : String) (price : ℚ)
    (pr : Except String OrderPayload) (si : Except String SymbolInfoRaw)
    (a : Asset) (m : ℚ) (p : ℕ)
    (hA : lookupA (Binance.refresh_balance st.assets fetched) currency = some a)
    (hM : Binance.min_limit st currency = some m)
    (hge : ¬ a.available + a.pending < m)
    (hq : ¬ Binance.quantity_to_buy (a.available + a.pending) st.risk > a.available)
    (hp : Binance.coin_precision currency = some p) :
    (Binance.buy st fetched coin currency price pr si).requests
      = [if price = 0 then
           Binance.BuyRequest.market coin
             (pyRound (Binance.quantity_to_buy (a.available + a.pending) st.risk) p)
         else
           Binance.BuyRequest.limit coin price
             (pyRound (Binance.quantity_to_buy (a.available + a.pending) st.risk / price) p)] := by
  simp only [Binance.buy, min_limit_state_update, hA, hM, hp]
  rw [if_neg hge, if_neg hq]
  repeat' split
  all_goals rfl

/-- Outcome of `buy` when the placement call raises: the exception is caught
and returned as a failure dict. -/
theorem buy_exchange_exc (st : BinanceState) (fetched : List FetchedBal)
    (coin currency : String) (price : ℚ) (e : String)
    (si : Except String SymbolInfoRaw)
    (a : Asset) (m : ℚ) (p : ℕ)
    (hA : lookupA (Binance.refresh_balance st.assets fetched) currency = some a)
    (hM : Binance.min_limit st currency = some m)
    (hge : ¬ a.available + a.pending < m)
    (hq : ¬ Binance.quantity_to_buy (a.available + a.pending) st.risk > a.available)
    (hp : Binance.coin_precision currency = some p) :
    (Binance.buy st fetched coin currency price (.error e) si).result
      = .ok (false, .errorExc e) := by
  simp only [Binance.buy, min_limit_state_update, hA, hM, hp]
  rw [if_neg hge, if_neg hq]

/-- Outcome of `buy` when the placement call returns a non-FILLED payload:
failure carrying the raw payload. -/
theorem buy_not_filled (st : BinanceState) (fetched : List FetchedBal)
    (coin currency : String) (price : ℚ) (o : OrderPayload)
    (si : Except String SymbolInfoRaw)
    (a : Asset) (m : ℚ) (p : ℕ)
    (hA : lookupA (Binance.refresh_balance st.assets fetched) currency = some a)
    (hM : Binance.min_limit st currency = some m)
    (hge : ¬ a.available + a.pending < m)
    (hq : ¬ Binance.quantity_to_buy (a.available + a.pending) st.risk > a.available)
    (hp : Binance.coin_precision currency = some p)
    (hs : o.status ≠ "FILLED") :
    (Binance.buy st fetched coin currency price (.ok o) si).result
      = .ok (false, .payload o) := by
  simp only [Binance.buy, min_limit_state_update, hA, hM, hp]
  rw [if_neg hge, if_neg hq, if_neg hs]

/-- Outcome of `buy` when the placement call returns a FILLED payload and the
post-fill bookkeeping succeeds: success carrying the raw payload. -/
theorem buy_filled (st : BinanceState) (fetched : List FetchedBal)
    (coin currency : String) (price : ℚ) (o : OrderPayload)
    (d : SymbolInfoRaw) (a b : Asset) (m : ℚ) (p : ℕ) (info : AssetInfo)
    (hA : lookupA (Binance.refresh_balance st.assets fetched) currency = some a)
    (hM : Binance.min_limit st currency = some m)
    (hge : ¬ a.available + a.pending < m)
    (hq : ¬ Binance.quantity_to_buy (a.available + a.pending) st.risk > a.available)
    (hp : Binance.coin_precision currency = some p)
    (hs : o.status = "FILLED")
    (hi : Binance.asset_info d = .ok info)
    (hB : lookupA (Binance.refresh_balance st.assets fetched)
            (removeAll coin currency) = some b) :
    (Binance.buy st fetched coin currency price (.ok o) (.ok d)).result
      = .ok (true, .payload o) := by
  simp only [Binance.buy, min_limit_state_update, hA, hM, hp, hi, hB]
  rw [if_neg hge, if_neg hq, if_pos hs]

/-! ### Claim theorems -/

/-- C6: `stop_loss(last, entryPrice, pct)` returns true exactly when
`last ≤ entryPrice × (1 − pct/100)` and `trailing_stop_loss(last,
highestSinceEntry, pct)` returns true exactly when
`last ≤ highestSinceEntry × (1 − pct/100)`; both are total pure functions,
and with entry 100, highest 110, pct 10, the trailing stop fires at
last = 95 while the plain stop does not. -/
theorem c6_exit_predicates :
    (∀ last entry pct : ℚ,
      stop_loss last entry pct = true ↔ last ≤ entry * (1 - pct / 100)) ∧
    (∀ last higher pct : ℚ,
      trailing_stop_loss last higher pct = true ↔ last ≤ higher * (1 - pct / 100)) ∧
    trailing_stop_loss 95 110 10 = true ∧ stop_loss 95 100 10 = false := by
  refine ⟨fun l e p => ?_, fun l h p => ?_, ?_, ?_⟩
  · have he : e * (1 - p * (1/100)) = e * (1 - p / 100) := by ring
    simp only [stop_loss, decide_eq_true_eq]
    rw [he]
  · have hh : h * (1 - p * (1/100)) = h * (1 - p / 100) := by ring
    simp only [trailing_stop_loss, decide_eq_true_eq]
    rw [hh]
  · simp only [trailing_stop_loss, decide_eq_true_eq]
    norm_num
  · simp only [stop_loss, decide_eq_false_iff_not]
    norm_num

/-- Witness for C6 at a concrete input. -/
theorem c6_witness : stop_loss 80 100 10 = true :=
  (c6_exit_predicates.1 80 100 10).mpr (by norm_num)

/-- C8: every `Bittrex.buy` call that passes the minimum-balance check
raises `NameError` on the undefined name `rate` and issues no placement
request; the only non-raising outcome of `Bittrex.buy` is the
insufficient-funds failure result. -/
theorem c8_bittrex_undefined_rate (st : BittrexState) (coin : String)
    (amount price avail : ℚ)
    (hA : lookupA st.available (headOfSplitDash coin) = some avail)
    (hpass : st.min_limit < avail) :
    Bittrex.buy st coin amount price = (.error (.nameError "rate"), []) ∧
    (∀ st' : BittrexState, ∀ coin' : String, ∀ amount' price' : ℚ,
      ∀ r : Bool × String,
        (Bittrex.buy st' coin' amount' price').1 = .ok r →
          r = (false, "Cash under Minimum limit.")) ∧
    (∀ st' : BittrexState, ∀ coin' : String, ∀ amount' price' : ℚ,
      (Bittrex.buy st' coin' amount' price').2 = []) := by
  refine ⟨?_, ?_, ?_⟩
  · simp only [Bittrex.buy, hA]
    rw [if_neg (not_le.mpr hpass)]
  · intro st' coin' amount' price' r hr
    simp only [Bittrex.buy] at hr
    cases hL : lookupA st'.available (headOfSplitDash coin') with
    | none =>
      simp only [hL] at hr
      exact Except.noConfusion hr
    | some av =>
      simp only [hL] at hr
      by_cases hle : av ≤ st'.min_limit
      · rw [if_pos hle] at hr
        exact (Except.ok.inj hr).symm
      · rw [if_neg hle] at hr
        exact Except.noConfusion hr
  · intro st' coin' amount' price'
    simp only [Bittrex.buy]
    repeat' split
    all_goals rfl

/-- Witness for C8 at a concrete input. -/
theorem c8_witness :
    Bittrex.buy c8State "USDT-ETH" 1 2 = (.error (.nameError "rate"), []) ∧
    (∀ st' : BittrexState, ∀ coin' : String, ∀ amount' price' : ℚ,
      ∀ r : Bool × String,
        (Bittrex.buy st' coin' amount' price').1 = .ok r →
          r = (false, "Cash under Minimum limit.")) ∧
    (∀ st' : BittrexState, ∀ coin' : String, ∀ amount' price' : ℚ,
      (Bittrex.buy st' coin' amount' price').2 = []) :=
  c8_bittrex_undefined_rate c8State "USDT-ETH" 1 2 100 rfl (by norm_num [c8State])

/-- C9: `Binance.buy` takes no lock, so two overlapping buy calls may both
read the same balance 1000 and — with risk 1/10 — jointly spend 200, more
than the 100 = B × r the claim permits: the interleaving
read₁, read₂, submit₁, submit₂ of the source's read–size–submit sequence
overspends. -/
theorem c9_unlocked_buys_overspend :
    jointSpend (runBuys (1/10) ⟨1000, none, none, none, none⟩
      [.read1, .read2, .submit1, .submit2]) = 200 ∧
    Binance.quantity_to_buy 1000 (1/10) = 100 ∧ (1000 : ℚ) * (1/10) < 200 := by
  refine ⟨?_, by norm_num [Binance.quantity_to_buy], by norm_num⟩
  norm_num [runBuys, List.foldl_cons, List.foldl_nil, stepBuy, jointSpend,
    Binance.quantity_to_buy]

/-- C10: `Binance.sell` with a non-zero explicit quantity issues no
placement request and raises `UnboundLocalError` on `sell_order`. -/
theorem c10_sell_explicit_quantity (st : BinanceState) (fetched : List FetchedBal)
    (coin currency : String) (quantity : ℚ)
    (placeResult : Except String OrderPayload)
    (hq : quantity ≠ 0) :
    (Binance.sell st fetched coin currency quantity placeResult).result
      = .error (.unboundLocal "sell_order") ∧
    (Binance.sell st fetched coin currency quantity placeResult).requests = [] := by
  refine ⟨?_, ?_⟩ <;> (simp only [Binance.sell]; rw [if_neg hq])

/-- C1 (counterexample): with 100 USDT available, 100 USDT pending and risk
3/5 ∈ (0,1], the spend the code computes (line 152 sizes against
available + pending) is 120, which exceeds the available balance B = 100
and differs from B × r = 60 — refuting "spend is computed as B × r" and
"spend never exceeds B"; the call then takes the no-space failure branch. -/
theorem c1_counterexample :
    lookupA c1State.assets "USDT" = some ⟨100, 100, none⟩ ∧
    (0 : ℚ) < 3/5 ∧ (3/5 : ℚ) ≤ 1 ∧ c1State.risk = 3/5 ∧
    Binance.quantity_to_buy (100 + 100) (3/5) = 120 ∧
    ¬ Binance.quantity_to_buy (100 + 100) (3/5) ≤ 100 ∧
    Binance.quantity_to_buy (100 + 100) (3/5) ≠ 100 * (3/5) ∧
    (Binance.buy c1State [] "ETHUSDT" "USDT" 0 (.ok ⟨"NEW", ""⟩) (.error "e")).result
      = .ok (false, .errorMsg "Portfolio has no space for new assets") := by
  have h := buy_no_space c1State [] "ETHUSDT" "USDT" 0 (.ok ⟨"NEW", ""⟩) (.error "e")
    ⟨100, 100, none⟩ 50 rfl rfl
    (show ¬((100 : ℚ) + 100 < 50) by norm_num)
    (show Binance.quantity_to_buy ((100 : ℚ) + 100) c1State.risk > 100 by
      norm_num [Binance.quantity_to_buy, c1State])
  refine ⟨rfl, by norm_num, by norm_num, rfl, ?_, ?_, ?_, by rw [h]⟩ <;>
    norm_num [Binance.quantity_to_buy]

/-- C1 (amended): the raw target spend is computed as
(available + pending) × r, so for every r ∈ (0,1] it never exceeds
available + pending; and whenever the computed spend exceeds the available
balance, `buy` returns a failure result and places no order. -/
theorem c1_spend_bound (st : BinanceState) (fetched : List FetchedBal)
    (coin currency : String) (price : ℚ)
    (pr : Except String OrderPayload) (si : Except String SymbolInfoRaw)
    (a : Asset) (m : ℚ)
    (hA : lookupA (Binance.refresh_balance st.assets fetched) currency = some a)
    (hM : Binance.min_limit st currency = some m)
    (hav : 0 ≤ a.available) (hpe : 0 ≤ a.pending) :
    (0 < st.risk → st.risk ≤ 1 →
      Binance.quantity_to_buy (a.available + a.pending) st.risk
        ≤ a.available + a.pending) ∧
    (Binance.quantity_to_buy (a.available + a.pending) st.risk > a.available →
      ((Binance.buy st fetched coin currency price pr si).result
          = .ok (false, .errorMsg "Insufficient funds") ∨
       (Binance.buy st fetched coin currency price pr si).result
          = .ok (false, .errorMsg "Portfolio has no space for new assets")) ∧
      (Binance.buy st fetched coin currency price pr si).requests = []) := by
  constructor
  · intro h0 h1
    unfold Binance.quantity_to_buy
    exact mul_le_of_le_one_right (by linarith) h1
  · intro hq
    by_cases hlt : a.available + a.pending < m
    · have h := buy_insufficient st fetched coin currency price pr si a m hA hM hlt
      exact ⟨Or.inl (by rw [h]), by rw [h]⟩
    · have h := buy_no_space st fetched coin currency price pr si a m hA hM hlt hq
      exact ⟨Or.inr (by rw [h]), by rw [h]⟩

/-- Witness for C1 at a concrete input. -/
theorem c1_witness :
    (0 < c1State.risk → c1State.risk ≤ 1 →
      Binance.quantity_to_buy ((100 : ℚ) + 100) c1State.risk ≤ 100 + 100) ∧
    (Binance.quantity_to_buy ((100 : ℚ) + 100) c1State.risk > 100 →
      ((Binance.buy c1State [] "ETHUSDT" "USDT" 0 (.ok ⟨"NEW", ""⟩) (.error "w")).result
          = .ok (false, .errorMsg "Insufficient funds") ∨
       (Binance.buy c1State [] "ETHUSDT" "USDT" 0 (.ok ⟨"NEW", ""⟩) (.error "w")).result
          = .ok (false, .errorMsg "Portfolio has no space for new assets")) ∧
      (Binance.buy c1State [] "ETHUSDT" "USDT" 0 (.ok ⟨"NEW", ""⟩) (.error "w")).requests
        = []) :=
  c1_spend_bound c1State [] "ETHUSDT" "USDT" 0 (.ok ⟨"NEW", ""⟩) (.error "w")
    ⟨100, 100, none⟩ 50 rfl rfl
    (show (0 : ℚ) ≤ 100 by norm_num) (show (0 : ℚ) ≤ 100 by norm_num)

/-- C4 (counterexample): with 10 USDT available (below the minimum 50) but
100 USDT pending, risk 1/20, `buy` does not fail with insufficient funds —
the guard tests available + pending = 110 ≥ 50 — and a market order for
round(5.5, 2) = 5.5 is placed. -/
theorem c4_counterexample :
    lookupA c4State.assets "USDT" = some ⟨10, 100, none⟩ ∧
    c4State.usdt_min = 50 ∧ ((10 : ℚ) < 50) ∧
    (Binance.buy c4State [] "ETHUSDT" "USDT" 0 (.ok ⟨"NEW", ""⟩) (.error "e")).requests
      = [Binance.BuyRequest.market "ETHUSDT" (11/2)] ∧
    (Binance.buy c4State [] "ETHUSDT" "USDT" 0 (.ok ⟨"NEW", ""⟩) (.error "e")).result
      ≠ .ok (false, .errorMsg "Insufficient funds") := by
  have hge : ¬((10 : ℚ) + 100 < 50) := by norm_num
  have hq : ¬(Binance.quantity_to_buy ((10 : ℚ) + 100) c4State.risk > 10) := by
    norm_num [Binance.quantity_to_buy, c4State]
  have hreq := buy_requests_of_guards c4State [] "ETHUSDT" "USDT" 0
    (.ok ⟨"NEW", ""⟩) (.error "e") ⟨10, 100, none⟩ 50 2 rfl rfl hge hq rfl
  have hres := buy_not_filled c4State [] "ETHUSDT" "USDT" 0 ⟨"NEW", ""⟩
    (.error "e") ⟨10, 100, none⟩ 50 2 rfl rfl hge hq rfl
    (show ("NEW" : String) ≠ "FILLED" by decide)
  refine ⟨rfl, rfl, by norm_num, ?_, ?_⟩
  · rw [hreq]
    norm_num [Binance.quantity_to_buy, c4State, pyRound, roundHalfEven]
  · rw [hres]
    decide

/-- C4 (amended): whenever available + pending is below the configured
minimum threshold, `buy` returns the insufficient-funds failure dict and
issues no placement request. -/
theorem c4_min_threshold (st : BinanceState) (fetched : List FetchedBal)
    (coin currency : String) (price : ℚ)
    (pr : Except String OrderPayload) (si : Except String SymbolInfoRaw)
    (a : Asset) (m : ℚ)
    (hA : lookupA (Binance.refresh_balance st.assets fetched) currency = some a)
    (hM : Binance.min_limit st currency = some m)
    (hlt : a.available + a.pending < m) :
    (Binance.buy st fetched coin currency price pr si).result
      = .ok (false, .errorMsg "Insufficient funds") ∧
    (Binance.buy st fetched coin currency price pr si).requests = [] := by
  have h := buy_insufficient st fetched coin currency price pr si a m hA hM hlt
  exact ⟨by rw [h], by rw [h]⟩

/-- Witness for C4 at a concrete input. -/
theorem c4_witness :
    (Binance.buy lowState [] "ETHUSDT" "USDT" 0 (.ok ⟨"NEW", ""⟩) (.error "w")).result
      = .ok (false, .errorMsg "Insufficient funds") ∧
    (Binance.buy lowState [] "ETHUSDT" "USDT" 0 (.ok ⟨"NEW", ""⟩) (.error "w")).requests
      = [] :=
  c4_min_threshold lowState [] "ETHUSDT" "USDT" 0 (.ok ⟨"NEW", ""⟩) (.error "w")
    ⟨20, 10, none⟩ 50 rfl rfl (show (20 : ℚ) + 10 < 50 by norm_num)

/-- C2 (counterexample): at the spec's example — 1000 USDT available, 0
pending, risk 1/10 (target spend 100), limit price 20000 — the code submits
quantity `round(100/20000, coin_precision['USDT']) = round(0.005, 2) = 0`,
not the claimed 0.005 = lot-rounded 100/20000; no lot-size flooring is
applied. -/
theorem c2_counterexample :
    lookupA c2State.assets "USDT" = some ⟨1000, 0, none⟩ ∧
    c2State.risk = 1/10 ∧ c2State.usdt_min = 50 ∧
    Binance.quantity_to_buy (1000 + 0) (1/10) = 100 ∧
    (Binance.buy c2State [] "BTCUSDT" "USDT" 20000 (.ok ⟨"NEW", ""⟩) (.error "e")).requests
      = [Binance.BuyRequest.limit "BTCUSDT" 20000 0] ∧
    (0 : ℚ) ≠ 5/1000 := by
  have hge : ¬((1000 : ℚ) + 0 < 50) := by norm_num
  have hq : ¬(Binance.quantity_to_buy ((1000 : ℚ) + 0) c2State.risk > 1000) := by
    norm_num [Binance.quantity_to_buy, c2State]
  have hreq := buy_requests_of_guards c2State [] "BTCUSDT" "USDT" 20000
    (.ok ⟨"NEW", ""⟩) (.error "e") ⟨1000, 0, none⟩ 50 2 rfl rfl hge hq rfl
  refine ⟨rfl, rfl, rfl, by norm_num [Binance.quantity_to_buy], ?_, by norm_num⟩
  rw [hreq]
  norm_num [Binance.quantity_to_buy, c2State, pyRound, roundHalfEven]

/-- C2 (amended): for a limit buy the submitted quantity is
`round(spend / price, coin_precision[currency])` — Python round-half-to-even
at the quote currency's decimal precision, with no lot-size flooring. -/
theorem c2_limit_buy_quantity (st : BinanceState) (fetched : List FetchedBal)
    (coin currency : String) (price : ℚ)
    (pr : Except String OrderPayload) (si : Except String SymbolInfoRaw)
    (a : Asset) (m : ℚ) (p : ℕ)
    (hA : lookupA (Binance.refresh_balance st.assets fetched) currency = some a)
    (hM : Binance.min_limit st currency = some m)
    (hge : ¬ a.available + a.pending < m)
    (hq : ¬ Binance.quantity_to_buy (a.available + a.pending) st.risk > a.available)
    (hp : Binance.coin_precision currency = some p)
    (hprice : price ≠ 0) :
    (Binance.buy st fetched coin currency price pr si).requests
      = [Binance.BuyRequest.limit coin price
          (pyRound (Binance.quantity_to_buy (a.available + a.pending) st.risk / price) p)] := by
  rw [buy_requests_of_guards st fetched coin currency price pr si a m p hA hM hge hq hp,
    if_neg hprice]

/-- Witness for C2 at the spec's example inputs. -/
theorem c2_witness :
    (Binance.buy c2State [] "BTCUSDT" "USDT" 20000 (.ok ⟨"NEW", ""⟩) (.error "w")).requests
      = [Binance.BuyRequest.limit "BTCUSDT" 20000
          (pyRound (Binance.quantity_to_buy ((1000 : ℚ) + 0) c2State.risk / 20000) 2)] :=
  c2_limit_buy_quantity c2State [] "BTCUSDT" "USDT" 20000 (.ok ⟨"NEW", ""⟩) (.error "w")
    ⟨1000, 0, none⟩ 50 2 rfl rfl
    (show ¬((1000 : ℚ) + 0 < 50) by norm_num)
    (show ¬(Binance.quantity_to_buy ((1000 : ℚ) + 0) c2State.risk > 1000) by
      norm_num [Binance.quantity_to_buy, c2State])
    rfl (by norm_num)

/-- C3 (counterexample): `get_balances` on an unknown asset raises a
`KeyError` instead of returning a (success flag, structured result) pair. -/
theorem c3_counterexample :
    (Binance.get_balances c2State [] (.strArg "XYZ")).1 = .error (.keyError "XYZ") := by
  rfl

/-- C3 (amended): `buy` reports expected business failures — including an
exchange rejection raised by the client — as (flag, dict) failure results
without raising, and `cancel_order` forwards the exchange payload
unmodified; but `get_balances` returns a bare mapping and raises `KeyError`
for an unknown asset rather than returning a failure pair. -/
theorem c3_failure_reporting (st : BinanceState) (fetched : List FetchedBal)
    (coin currency : String) (price : ℚ) (e : String)
    (si : Except String SymbolInfoRaw)
    (a : Asset) (m : ℚ) (p : ℕ)
    (hA : lookupA (Binance.refresh_balance st.assets fetched) currency = some a)
    (hM : Binance.min_limit st currency = some m)
    (hge : ¬ a.available + a.pending < m)
    (hq : ¬ Binance.quantity_to_buy (a.available + a.pending) st.risk > a.available)
    (hp : Binance.coin_precision currency = some p) :
    (Binance.buy st fetched coin currency price (.error e) si).result
      = .ok (false, .errorExc e) ∧
    (∀ s o : String, ∀ pl : OrderPayload, Binance.cancel_order s o pl = pl) ∧
    (∀ st' : BinanceState, ∀ fetched' : List FetchedBal, ∀ c : String,
      c ≠ "" →
      lookupA (Binance.refresh_balance st'.assets fetched') c = none →
      (Binance.get_balances st' fetched' (.strArg c)).1 = .error (.keyError c)) := by
  refine ⟨buy_exchange_exc st fetched coin currency price e si a m p hA hM hge hq hp,
    fun s o pl => rfl, ?_⟩
  intro st' fetched' c hc hnone
  have hf : Binance.falsyCoins (.strArg c) = false := by
    simp [Binance.falsyCoins, hc]
  simp only [Binance.get_balances, hf, Bool.false_eq_true, if_false, hnone]

/-- Witness for C3 at a concrete input. -/
theorem c3_witness :
    (Binance.buy c2State [] "BTCUSDT" "USDT" 0 (.error "ExchangeError") (.error "w")).result
      = .ok (false, .errorExc "ExchangeError") ∧
    (∀ s o : String, ∀ pl : OrderPayload, Binance.cancel_order s o pl = pl) ∧
    (∀ st' : BinanceState, ∀ fetched' : List FetchedBal, ∀ c : String,
      c ≠ "" →
      lookupA (Binance.refresh_balance st'.assets fetched') c = none →
      (Binance.get_balances st' fetched' (.strArg c)).1 = .error (.keyError c)) :=
  c3_failure_reporting c2State [] "BTCUSDT" "USDT" 0 "ExchangeError" (.error "w")
    ⟨1000, 0, none⟩ 50 2 rfl rfl
    (show ¬((1000 : ℚ) + 0 < 50) by norm_num)
    (show ¬(Binance.quantity_to_buy ((1000 : ℚ) + 0) c2State.risk > 1000) by
      norm_num [Binance.quantity_to_buy, c2State])
    rfl

/-- C5: a default-quantity sell submits exactly
`round(available − (available mod L), p)` — the decimal rounding applied
after the modulus subtraction; the ideal quantity `available − (available
mod L)` is at most the available quantity and is an exact multiple of L, and
the submitted quantity respects both bounds within the precision-p grid
(half an ulp, `1/(2·10^p)`). -/
theorem c5_sell_default_quantity (st : BinanceState) (fetched : List FetchedBal)
    (coin currency : String) (placeResult : Except String OrderPayload)
    (a : Asset) (info : AssetInfo)
    (hA : lookupA (Binance.refresh_balance st.assets fetched)
            (removeAll coin currency) = some a)
    (hI : a.info = some info) (hL : 0 < info.lot_size) :
    (Binance.sell st fetched coin currency 0 placeResult).requests
      = [Binance.SellRequest.market coin
          (pyRound (a.available - pyMod a.available info.lot_size) info.precision)] ∧
    a.available - pyMod a.available info.lot_size ≤ a.available ∧
    pyMod (a.available - pyMod a.available info.lot_size) info.lot_size = 0 ∧
    pyRound (a.available - pyMod a.available info.lot_size) info.precision
      ≤ a.available + 1 / (2 * 10 ^ info.precision) ∧
    ∃ k : ℤ,
      |pyRound (a.available - pyMod a.available info.lot_size) info.precision
        - k * info.lot_size| ≤ 1 / (2 * 10 ^ info.precision) := by
  have hmod : 0 ≤ pyMod a.available info.lot_size := pyMod_nonneg _ _ hL
  have hclose := pyRound_close (a.available - pyMod a.available info.lot_size)
    info.precision
  refine ⟨?_, by linarith, pyMod_sub_pyMod _ _ (ne_of_gt hL), ?_, ?_⟩
  · simp only [Binance.sell, hA, hI, if_true]
    cases placeResult with
    | error e => rfl
    | ok o => rfl
  · have := abs_le.mp hclose
    linarith [this.2]
  · refine ⟨⌊a.available / info.lot_size⌋, ?_⟩
    have hx : a.available - pyMod a.available info.lot_size
        = (⌊a.available / info.lot_size⌋ : ℚ) * info.lot_size := by
      rw [sub_pyMod_eq]; ring
    rw [← hx]
    exact hclose

/-- Witness for C5 at a concrete input: 1.2345 BTC available, lot size
0.001, precision 3. -/
theorem c5_witness :
    (Binance.sell c5State [] "BTCUSDT" "USDT" 0 (.ok ⟨"FILLED", ""⟩)).requests
      = [Binance.SellRequest.market "BTCUSDT"
          (pyRound ((12345/10000 : ℚ) - pyMod (12345/10000) demoInfo.lot_size)
            demoInfo.precision)] ∧
    (12345/10000 : ℚ) - pyMod (12345/10000) demoInfo.lot_size ≤ 12345/10000 ∧
    pyMod ((12345/10000 : ℚ) - pyMod (12345/10000) demoInfo.lot_size)
      demoInfo.lot_size = 0 ∧
    pyRound ((12345/10000 : ℚ) - pyMod (12345/10000) demoInfo.lot_size)
      demoInfo.precision ≤ 12345/10000 + 1 / (2 * 10 ^ demoInfo.precision) ∧
    ∃ k : ℤ,
      |pyRound ((12345/10000 : ℚ) - pyMod (12345/10000) demoInfo.lot_size)
        demoInfo.precision - k * demoInfo.lot_size|
        ≤ 1 / (2 * 10 ^ demoInfo.precision) :=
  c5_sell_default_quantity c5State [] "BTCUSDT" "USDT" (.ok ⟨"FILLED", ""⟩)
    ⟨12345/10000, 0, some demoInfo⟩ demoInfo rfl rfl
    (show (0 : ℚ) < 1/1000 by norm_num)

/-- C7: when the placement call returns an order payload (and the post-fill
bookkeeping inputs are available), `buy` returns success exactly when the
payload's status is FILLED, and for any other status it returns failure
carrying the raw exchange payload unmodified. -/
theorem c7_filled_iff (st : BinanceState) (fetched : List FetchedBal)
    (coin currency : String) (price : ℚ) (o : OrderPayload)
    (d : SymbolInfoRaw) (a b : Asset) (m : ℚ) (p : ℕ) (info : AssetInfo)
    (hA : lookupA (Binance.refresh_balance st.assets fetched) currency = some a)
    (hM : Binance.min_limit st currency = some m)
    (hge : ¬ a.available + a.pending < m)
    (hq : ¬ Binance.quantity_to_buy (a.available + a.pending) st.risk > a.available)
    (hp : Binance.coin_precision currency = some p)
    (hi : Binance.asset_info d = .ok info)
    (hB : lookupA (Binance.refresh_balance st.assets fetched)
            (removeAll coin currency) = some b) :
    ((Binance.buy st fetched coin currency price (.ok o) (.ok d)).result
        = .ok (true, .payload o) ↔ o.status = "FILLED") ∧
    (o.status ≠ "FILLED" →
      (Binance.buy st fetched coin currency price (.ok o) (.ok d)).result
        = .ok (false, .payload o)) := by
  have hnotf := fun hs => buy_not_filled st fetched coin currency price o (.ok d)
    a m p hA hM hge hq hp hs
  refine ⟨⟨fun hres => ?_, fun hs => buy_filled st fetched coin currency price o d
    a b m p info hA hM hge hq hp hs hi hB⟩, hnotf⟩
  by_contra hs
  rw [hnotf hs] at hres
  simp at hres

/-- Witness for C7 at a concrete input: a FILLED market buy of BTCUSDT. -/
theorem c7_witness :
    ((Binance.buy c5State [] "BTCUSDT" "USDT" 0 (.ok ⟨"FILLED", "id1"⟩)
        (.ok demoInfo.more)).result
      = .ok (true, .payload ⟨"FILLED", "id1"⟩)
        ↔ (⟨"FILLED", "id1"⟩ : OrderPayload).status = "FILLED") ∧
    ((⟨"FILLED", "id1"⟩ : OrderPayload).status ≠ "FILLED" →
      (Binance.buy c5State [] "BTCUSDT" "USDT" 0 (.ok ⟨"FILLED", "id1"⟩)
          (.ok demoInfo.more)).result
        = .ok (false, .payload ⟨"FILLED", "id1"⟩)) :=
  c7_filled_iff c5State [] "BTCUSDT" "USDT" 0 ⟨"FILLED", "id1"⟩ demoInfo.more
    ⟨1000, 0, none⟩ ⟨12345/10000, 0, some demoInfo⟩ 50 2 demoInfo
    rfl rfl
    (show ¬((1000 : ℚ) + 0 < 50) by norm_num)
    (show ¬(Binance.quantity_to_buy ((1000 : ℚ) + 0) c5State.risk > 1000) by
      norm_num [Binance.quantity_to_buy, c5State])
    rfl rfl rfl

/-- Witness for C10 at a concrete input. -/
theorem c10_witness :
    (Binance.sell c2State [] "BTCUSDT" "USDT" 1 (.ok ⟨"FILLED", ""⟩)).result
      = .error (.unboundLocal "sell_order") ∧
    (Binance.sell c2State [] "BTCUSDT" "USDT" 1 (.ok ⟨"FILLED", ""⟩)).requests = [] :=
  c10_sell_explicit_quantity c2State [] "BTCUSDT" "USDT" 1 (.ok ⟨"FILLED", ""⟩)
    (by norm_num)

end AlgoTrading
